import Mathlib

/-!
A shallow embedding of the host-side client in main.go of the
wazero-sqlite repository.  The guest Wasm module (the SQLite engine
compiled to Wasm) is external to the repository, so it is modelled as an
opaque oracle (`Engine`): each call of an exported function may trap
(`none`) or return a list of 64-bit results while possibly updating the
guest linear memory and the engine's own hidden state.  The host-side
code (`newSqlModule`, `execSql`, `execSelectUsers`, `allocateString`,
`readInt`, `readText`, `execStep`, `ensureStatusCodeSuccess`) is
translated statement by statement from main.go.

Conventions:
* bytes and machine words are natural numbers, with an explicit
  truncation (`u32`) at every place the Go code casts to uint32;
* Go strings are byte lists (`List Nat`);
* every log.Panic site of the Go code becomes an error value of
  `HostError`: `callError` for a failed call into the module (a trap,
  or a missing export, whose nil function value also aborts the call in
  Go), `engineError` for the non-zero status panic of
  `ensureStatusCodeSuccess`, and `hostPanic` with the literal message
  for the remaining panics;
* each host operation returns its `Except` result together with the
  updated state; the state carries an instrumentation `trace` of the
  observable interactions (calls into the module, host reads and writes
  of guest memory), used to state frame and no-further-call properties.
-/

namespace WazeroSqlite

/-- Truncation to an unsigned 32-bit value, Go's uint32 cast. -/
def u32 (x : Nat) : Nat := x % 4294967296

/-- Little-endian decoding of a 4-byte list into a 32-bit value. -/
def leU32 (bs : List Nat) : Nat :=
  match bs with
  | [b0, b1, b2, b3] => b0 + 256 * b1 + 65536 * b2 + 16777216 * b3
  | _ => 0

/-- Go's int cast of a uint64 value on a 64-bit platform:
two's-complement reinterpretation as a signed 64-bit integer. -/
def toInt64 (x : Nat) : Int :=
  if x < 9223372036854775808 then (x : Int) else (x : Int) - 18446744073709551616

/-- Guest linear memory: a flat byte array (each entry is one byte of
the module's memory; `data.length` is the current memory size). -/
structure Mem where
  data : List Nat
  deriving Repr, DecidableEq

namespace Mem

/-- Current size of the linear memory in bytes. -/
def size (m : Mem) : Nat := m.data.length

/-- wazero Memory.Read: returns the byte range, or fails when the range
extends past the current memory size (never truncated). -/
def read (m : Mem) (ptr len : Nat) : Option (List Nat) :=
  if ptr + len ≤ m.size then some ((m.data.drop ptr).take len) else none

/-- wazero Memory.ReadUint32Le: reads 4 bytes and decodes little-endian. -/
def readUint32Le (m : Mem) (ptr : Nat) : Option Nat :=
  (m.read ptr 4).map leU32

/-- wazero Memory.Write: in-place update of the byte range, or failure
when the range is out of bounds (nothing is written then). -/
def write (m : Mem) (ptr : Nat) (bytes : List Nat) : Option Mem :=
  if ptr + bytes.length ≤ m.size then
    some ⟨m.data.take ptr ++ bytes ++ m.data.drop (ptr + bytes.length)⟩
  else none

end Mem

/-- The calls the host makes into the module's exported functions,
with their u64 argument lists (mirroring the api.Function.Call sites). -/
inductive ExtCall where
  | openV2 (args : List Nat)
  | exec (args : List Nat)
  | prepare (args : List Nat)
  | step (stmt : Nat)
  | columnInt (stmt col : Nat)
  | columnText (stmt col : Nat)
  | getResultPtr
  | getResultSize
  | alloc (size flag : Nat)
  deriving Repr, DecidableEq

/-- Observable interactions of the host, recorded for instrumentation:
a completed call into the module (with its name, arguments and raw
results), or a host-side access of a range of guest memory. -/
inductive Event where
  | call (name : String) (c : ExtCall) (res : List Nat)
  | memRead (ptr len : Nat)
  | memWrite (ptr len : Nat)
  deriving Repr, DecidableEq

/-- Panic sites of the Go host, as error values. -/
inductive HostError where
  | callError (name : String)
  | engineError (status : Nat) (msg : List Nat)
  | hostPanic (msg : String)
  deriving Repr, DecidableEq

/-- The guest module as an oracle: its export table, and for each call a
possible trap (`none`) or results plus an updated memory and hidden
engine state.  The SQLite engine itself is outside the repository, so
its behaviour is left arbitrary here. -/
structure Engine (σ : Type) where
  exports : List String
  call : σ → Mem → ExtCall → Option (List Nat × Mem × σ)

/-- Host-visible state: the module's linear memory, the engine's hidden
state, the client's stored database handle (field dbHandle of the Go
sqliteModule struct) and the instrumentation trace. -/
structure St (σ : Type) where
  mem : Mem
  eng : σ
  dbHandle : Nat
  trace : List Event

variable {σ : Type}

/-- Record a host-side read of guest memory in the trace. -/
def logRead (st : St σ) (ptr len : Nat) : St σ :=
  { st with trace := st.trace ++ [Event.memRead ptr len] }

/-- Record a host-side write of guest memory in the trace. -/
def logWrite (st : St σ) (ptr len : Nat) : St σ :=
  { st with trace := st.trace ++ [Event.memWrite ptr len] }

/-- Calling an exported function by name (api.Function.Call).  A missing
export (in Go: a nil api.Function) and a trap inside the module (in Go:
a non-nil err) both abort the call with `callError`; on success the
memory and engine state advance and the completed call is traced. -/
def callFunction (E : Engine σ) (name : String) (c : ExtCall) (st : St σ) :
    Except HostError (List Nat) × St σ :=
  if name ∈ E.exports then
    match E.call st.eng st.mem c with
    | none => (Except.error (HostError.callError name), st)
    | some (res, m2, e2) =>
        (Except.ok res,
         { st with mem := m2, eng := e2,
                   trace := st.trace ++ [Event.call name c res] })
  else (Except.error (HostError.callError name), st)

/-- Lines 211-223 of main.go: allocateString.  Calls the allocate export
with the byte length, then writes the bytes at the (u32-truncated)
returned address; returns the raw returned pointer and the length. -/
def allocateString (E : Engine σ) (str : List Nat) (st : St σ) :
    Except HostError (Nat × Nat) × St σ :=
  match callFunction E "allocate" (ExtCall.alloc str.length 0) st with
  | (Except.error e, st1) => (Except.error e, st1)
  | (Except.ok res, st1) =>
    match res.head? with
    | none => (Except.error (HostError.hostPanic "index out of range"), st1)
    | some ptr =>
      let st2 := logWrite st1 (u32 ptr) str.length
      match st1.mem.write (u32 ptr) str with
      | none => (Except.error (HostError.hostPanic "failed to write name"), st2)
      | some m2 => (Except.ok (ptr, str.length), { st2 with mem := m2 })

/-- Lines 260-269 of main.go: ensureStatusCodeSuccess.  Reads the status
code at the given address and panics with the engine status and the
supplied context message when it is non-zero. -/
def ensureStatusCodeSuccess (st : St σ) (resultPpr : Nat) (errMsg : List Nat) :
    Except HostError Unit × St σ :=
  let st1 := logRead st resultPpr 4
  match st.mem.readUint32Le resultPpr with
  | none => (Except.error (HostError.hostPanic "cannot read return code"), st1)
  | some retCode =>
    if retCode ≠ 0 then (Except.error (HostError.engineError retCode errMsg), st1)
    else (Except.ok (), st1)

/-- Lines 225-258 of main.go: execSql.  Writes the query into guest
memory, calls the exec export with the stored database handle, fetches
the envelope base pointer, reads the error-message pointer (u32 at
base+4) and length (u32 at base+8), reads the message bytes when the
length is non-zero, and checks the status at the base address. -/
def execSql (E : Engine σ) (query : List Nat) (st : St σ) :
    Except HostError Unit × St σ :=
  match allocateString E query st with
  | (Except.error e, st1) => (Except.error e, st1)
  | (Except.ok (queryPtr, querySize), st1) =>
    match callFunction E "sqlite3_exec"
        (ExtCall.exec [st1.dbHandle, queryPtr, querySize, 0, 0]) st1 with
    | (Except.error e, st2) => (Except.error e, st2)
    | (Except.ok _, st2) =>
      match callFunction E "get_result_ptr" ExtCall.getResultPtr st2 with
      | (Except.error e, st3) => (Except.error e, st3)
      | (Except.ok res, st3) =>
        match res.head? with
        | none => (Except.error (HostError.hostPanic "index out of range"), st3)
        | some res0 =>
          let st4 := logRead st3 (u32 (res0 + 4)) 4
          match st3.mem.readUint32Le (u32 (res0 + 4)) with
          | none => (Except.error (HostError.hostPanic "cannot read err msg ptr"), st4)
          | some errMsgPtr =>
            let st5 := logRead st4 (u32 (res0 + 8)) 4
            match st4.mem.readUint32Le (u32 (res0 + 8)) with
            | none => (Except.error (HostError.hostPanic "cannot read err msg size"), st5)
            | some errMsgSize =>
              if errMsgSize ≠ 0 then
                let st6 := logRead st5 errMsgPtr errMsgSize
                match st5.mem.read errMsgPtr errMsgSize with
                | none => (Except.error (HostError.hostPanic "cannot read err msg"), st6)
                | some raw => ensureStatusCodeSuccess st6 (u32 res0) raw
              else ensureStatusCodeSuccess st5 (u32 res0) []

/-- The byte list of the Go string ":memory:". -/
def memoryDbName : List Nat := [58, 109, 101, 109, 111, 114, 121, 58]

/-- The byte list of the Go string "db pointer". -/
def dbPointerMsg : List Nat := [100, 98, 32, 112, 111, 105, 110, 116, 101, 114]

/-- The byte list of the Go string "failed to prepare". -/
def failedToPrepareMsg : List Nat :=
  [102, 97, 105, 108, 101, 100, 32, 116, 111, 32, 112, 114, 101, 112, 97, 114, 101]

/-- Lines 81-122 of main.go: newSqlModule (after module instantiation,
which is part of the external runtime).  Allocates the database and vfs
name strings, calls the open export with flags 0b110 = 6, fetches the
envelope base pointer, checks the status, reads the database handle as
the u32 at base+4 and stores it in the client state. -/
def newSqlModule (E : Engine σ) (st : St σ) : Except HostError Unit × St σ :=
  match allocateString E memoryDbName st with
  | (Except.error e, st1) => (Except.error e, st1)
  | (Except.ok (dbNamePtr, dbNameSize), st1) =>
    match allocateString E [] st1 with
    | (Except.error e, st2) => (Except.error e, st2)
    | (Except.ok (fsNamePtr, fsNameSize), st2) =>
      match callFunction E "sqlite3_open_v2"
          (ExtCall.openV2 [dbNamePtr, dbNameSize, 6, fsNamePtr, fsNameSize]) st2 with
      | (Except.error e, st3) => (Except.error e, st3)
      | (Except.ok _, st3) =>
        match callFunction E "get_result_ptr" ExtCall.getResultPtr st3 with
        | (Except.error e, st4) => (Except.error e, st4)
        | (Except.ok res, st4) =>
          match res.head? with
          | none => (Except.error (HostError.hostPanic "index out of range"), st4)
          | some res0 =>
            match ensureStatusCodeSuccess st4 (u32 res0) dbPointerMsg with
            | (Except.error e, st5) => (Except.error e, st5)
            | (Except.ok _, st5) =>
              let st6 := logRead st5 (u32 (res0 + 4)) 4
              match st5.mem.readUint32Le (u32 (res0 + 4)) with
              | none => (Except.error (HostError.hostPanic "cannot take db pointer"), st6)
              | some dbHandle => (Except.ok (), { st6 with dbHandle := dbHandle })

/-- Line 167 of main.go: the row-available step code. -/
def SQLITE_ROW : Nat := 100

/-- Lines 203-209 of main.go: execStep.  Calls the step export with the
statement handle and returns its first raw result (in Go cast to int,
which only feeds the comparison with SQLITE_ROW). -/
def execStep (E : Engine σ) (stmt : Nat) (st : St σ) :
    Except HostError Nat × St σ :=
  match callFunction E "sqlite3_step" (ExtCall.step stmt) st with
  | (Except.error e, st1) => (Except.error e, st1)
  | (Except.ok res, st1) =>
    match res.head? with
    | none => (Except.error (HostError.hostPanic "index out of range"), st1)
    | some r => (Except.ok r, st1)

/-- Lines 170-176 of main.go: readInt.  Calls the int64 column export
and returns its first result reinterpreted as a signed 64-bit integer
(Go: int(res[0])); no envelope access, no guest-memory access. -/
def readInt (E : Engine σ) (stmt col : Nat) (st : St σ) :
    Except HostError Int × St σ :=
  match callFunction E "sqlite3_column_int64" (ExtCall.columnInt stmt col) st with
  | (Except.error e, st1) => (Except.error e, st1)
  | (Except.ok res, st1) =>
    match res.head? with
    | none => (Except.error (HostError.hostPanic "index out of range"), st1)
    | some r => (Except.ok (toInt64 r), st1)

/-- Lines 179-201 of main.go: readText.  Calls the text column export,
then the two envelope accessor exports for the text's pointer and size,
and reads that (u32-truncated) byte range out of guest memory. -/
def readText (E : Engine σ) (stmt col : Nat) (st : St σ) :
    Except HostError (List Nat) × St σ :=
  match callFunction E "sqlite3_column_text" (ExtCall.columnText stmt col) st with
  | (Except.error e, st1) => (Except.error e, st1)
  | (Except.ok _, st1) =>
    match callFunction E "get_result_ptr" ExtCall.getResultPtr st1 with
    | (Except.error e, st2) => (Except.error e, st2)
    | (Except.ok textPtrRes, st2) =>
      match callFunction E "get_result_size" ExtCall.getResultSize st2 with
      | (Except.error e, st3) => (Except.error e, st3)
      | (Except.ok textSizeRes, st3) =>
        match textPtrRes.head? with
        | none => (Except.error (HostError.hostPanic "index out of range"), st3)
        | some tp =>
          match textSizeRes.head? with
          | none => (Except.error (HostError.hostPanic "index out of range"), st3)
          | some ts =>
            let st4 := logRead st3 (u32 tp) (u32 ts)
            match st3.mem.read (u32 tp) (u32 ts) with
            | none => (Except.error (HostError.hostPanic "failed to read text"), st4)
            | some raw => (Except.ok raw, st4)

/-- A host-side row: integer id and text name (the user struct). -/
structure user where
  id : Int
  name : List Nat
  deriving Repr, DecidableEq

/-- Lines 152-163 of main.go: the step loop of execSelectUsers.  The Go
loop is unbounded, so the embedding takes a fuel parameter; exhausting
the fuel is an artifact of the embedding, reported as a distinct panic
message no Go code path produces. -/
def stepLoop (E : Engine σ) (stmt : Nat) :
    Nat → St σ → Except HostError (List user) × St σ
  | 0, st => (Except.error (HostError.hostPanic "out of fuel"), st)
  | fuel + 1, st =>
    match execStep E stmt st with
    | (Except.error e, st1) => (Except.error e, st1)
    | (Except.ok rc, st1) =>
      if rc = SQLITE_ROW then
        match readInt E stmt 0 st1 with
        | (Except.error e, st2) => (Except.error e, st2)
        | (Except.ok id, st2) =>
          match readText E stmt 1 st2 with
          | (Except.error e, st3) => (Except.error e, st3)
          | (Except.ok name, st3) =>
            match stepLoop E stmt fuel st3 with
            | (Except.error e, st4) => (Except.error e, st4)
            | (Except.ok rest, st4) =>
                (Except.ok ({ id := id, name := name } :: rest), st4)
      else (Except.ok [], st1)

/-- Lines 129-165 of main.go: execSelectUsers.  Writes the query, calls
the prepare export with the stored database handle, fetches the
envelope base pointer, checks the status, reads the statement handle as
the u32 at base+4 (panicking when the read fails or the handle is 0),
then drives the step loop. -/
def execSelectUsers (E : Engine σ) (query : List Nat) (fuel : Nat) (st : St σ) :
    Except HostError (List user) × St σ :=
  match allocateString E query st with
  | (Except.error e, st1) => (Except.error e, st1)
  | (Except.ok (queryPtr, querySize), st1) =>
    match callFunction E "sqlite3_prepare_v2"
        (ExtCall.prepare [st1.dbHandle, queryPtr, querySize]) st1 with
    | (Except.error e, st2) => (Except.error e, st2)
    | (Except.ok _, st2) =>
      match callFunction E "get_result_ptr" ExtCall.getResultPtr st2 with
      | (Except.error e, st3) => (Except.error e, st3)
      | (Except.ok res, st3) =>
        match res.head? with
        | none => (Except.error (HostError.hostPanic "index out of range"), st3)
        | some res0 =>
          match ensureStatusCodeSuccess st3 (u32 res0) failedToPrepareMsg with
          | (Except.error e, st4) => (Except.error e, st4)
          | (Except.ok _, st4) =>
            let st5 := logRead st4 (u32 (res0 + 4)) 4
            match st4.mem.readUint32Le (u32 (res0 + 4)) with
            | none =>
                (Except.error (HostError.hostPanic "failed to read prepared statement"), st5)
            | some stmt =>
              if stmt = 0 then
                (Except.error (HostError.hostPanic "failed to read prepared statement"), st5)
              else stepLoop E stmt fuel st5

/-! Concrete engine instances used to evaluate the embedding at
specific inputs (witnesses and counterexamples). -/

/-- The export names the client uses, all present. -/
def allExports : List String :=
  ["sqlite3_open_v2", "sqlite3_exec", "get_result_ptr", "get_result_size",
   "allocate", "sqlite3_prepare_v2", "sqlite3_step",
   "sqlite3_column_int64", "sqlite3_column_text"]

/-- A 64-byte memory whose envelope at base 16 has status 0 and
auxiliary-pointer field 7 (bytes 20..23 hold 7 little-endian). -/
def memA : Mem := ⟨List.replicate 20 0 ++ [7] ++ List.replicate 43 0⟩

/-- A stateless engine: the allocator returns 32, the envelope base
accessor returns 16, step reports 101 (not row-available), the int64
column reads 9, and no call traps or touches memory. -/
def engA : Engine Unit where
  exports := allExports
  call := fun _ m c =>
    match c with
    | ExtCall.alloc _ _ => some ([32], m, ())
    | ExtCall.openV2 _ => some ([0], m, ())
    | ExtCall.exec _ => some ([0], m, ())
    | ExtCall.prepare _ => some ([0], m, ())
    | ExtCall.getResultPtr => some ([16], m, ())
    | ExtCall.getResultSize => some ([2], m, ())
    | ExtCall.step _ => some ([101], m, ())
    | ExtCall.columnInt _ _ => some ([9], m, ())
    | ExtCall.columnText _ _ => some ([0], m, ())

/-- Initial state over `memA` with no stored handle and empty trace. -/
def stA : St Unit := { mem := memA, eng := (), dbHandle := 0, trace := [] }

/-- A 64-byte memory whose envelope at base 16 has status 1, auxiliary
pointer field 40 and auxiliary size field 2, with message bytes [65, 66]
at addresses 40..41. -/
def memB : Mem :=
  ⟨List.replicate 16 0 ++ [1, 0, 0, 0] ++ [40, 0, 0, 0] ++ [2, 0, 0, 0] ++
    List.replicate 12 0 ++ [65, 66] ++ List.replicate 22 0⟩

/-- Initial state over `memB` with stored database handle 5. -/
def stB : St Unit := { mem := memB, eng := (), dbHandle := 5, trace := [] }

/-- Initial state over an all-zero 64-byte memory (envelope status 0 and
auxiliary-pointer field 0), stored database handle 5. -/
def stC : St Unit :=
  { mem := ⟨List.replicate 64 0⟩, eng := (), dbHandle := 5, trace := [] }

/-- A counting engine whose step export reports row-available (100) on
the first step call and 101 afterwards; columns read as in `engA`. -/
def engRow : Engine Nat where
  exports := allExports
  call := fun n m c =>
    match c with
    | ExtCall.step _ => some ([if n = 0 then 100 else 101], m, n + 1)
    | ExtCall.alloc _ _ => some ([32], m, n)
    | ExtCall.getResultPtr => some ([16], m, n)
    | ExtCall.getResultSize => some ([2], m, n)
    | ExtCall.columnInt _ _ => some ([9], m, n)
    | ExtCall.columnText _ _ => some ([0], m, n)
    | _ => some ([0], m, n)

/-- Initial state for `engRow` over `memA`, stored database handle 5. -/
def stR : St Nat := { mem := memA, eng := 0, dbHandle := 5, trace := [] }

/-- An engine with an empty export table. -/
def engNoExports : Engine Unit where
  exports := []
  call := fun _ m _ => some ([0], m, ())

/-- An engine whose every call traps. -/
def engTrap : Engine Unit where
  exports := allExports
  call := fun _ _ _ => none

/-- The per-event condition of the frame claim: an exec or a prepare
call must carry the stored database handle as its first argument; every
other kind of event is unconstrained. -/
def handleArgsOk (db : Nat) (ev : Event) : Prop :=
  match ev with
  | Event.call _ (ExtCall.exec args) _ => args.head? = some db
  | Event.call _ (ExtCall.prepare args) _ => args.head? = some db
  | _ => True

/-- Frame relation between an initial and a final state: the stored
database handle still equals `db`, and every event of the final trace is
either already in the initial trace or satisfies `handleArgsOk db` (in
particular, every newly issued exec and prepare call passes `db`). -/
def FrameOk (db : Nat) (st st2 : St σ) : Prop :=
  st2.dbHandle = db ∧ ∀ ev ∈ st2.trace, ev ∈ st.trace ∨ handleArgsOk db ev

example : (newSqlModule engA stA).2.dbHandle = 7 := by rfl
example : (newSqlModule engA stA).1 = Except.ok () := by rfl
example : (execSql engA [81] stB).1 =
    Except.error (HostError.engineError 1 [65, 66]) := by rfl
example : (execSelectUsers engA [81] 9 stC).1 =
    Except.error (HostError.hostPanic "failed to read prepared statement") := by rfl
example : (execSelectUsers engA [81] 9 stA).1 = Except.ok [] := by rfl
example : (execSelectUsers engRow [81] 9 stR).1 =
    Except.ok [{ id := 9, name := [0, 0] }] := by rfl

/-! Helper lemmas about the memory model. -/

theorem Mem.read_eq_none_iff (m : Mem) (p n : Nat) :
    m.read p n = none ↔ m.size < p + n := by
  unfold Mem.read
  split <;> simp <;> omega

theorem Mem.read_eq_some (m : Mem) (p n : Nat) (bs : List Nat)
    (h : m.read p n = some bs) :
    p + n ≤ m.size ∧ bs = (m.data.drop p).take n ∧ bs.length = n := by
  unfold Mem.read at h
  split at h
  case isTrue hle =>
    refine ⟨hle, (Option.some.inj h).symm, ?_⟩
    have := Option.some.inj h
    subst this
    simp [List.length_take, List.length_drop, Mem.size] at hle ⊢
    omega
  case isFalse => exact absurd h (by simp)

theorem Mem.write_eq_none_iff (m : Mem) (p : Nat) (bs : List Nat) :
    m.write p bs = none ↔ m.size < p + bs.length := by
  unfold Mem.write
  split <;> simp <;> omega

theorem Mem.write_read (m m2 : Mem) (p : Nat) (bs : List Nat)
    (h : m.write p bs = some m2) : m2.read p bs.length = some bs := by
  unfold Mem.write at h
  split at h
  case isTrue hle =>
    have hm2 := Option.some.inj h
    subst hm2
    have hp : p ≤ m.data.length := by
      have := hle
      unfold Mem.size at this
      omega
    have hto : (m.data.take p).length = p := by
      simp [List.length_take]
      omega
    unfold Mem.read Mem.size
    rw [if_pos]
    · congr 1
      dsimp only
      rw [List.append_assoc, List.drop_left' hto, List.take_left' rfl]
    · dsimp only
      simp [List.length_take, List.length_drop]
      unfold Mem.size at hle
      omega
  case isFalse => exact absurd h (by simp)

/-! Claim theorems. -/

/-- C4: given that the status code at the supplied envelope address
reads as `code`, ensureStatusCodeSuccess fails exactly when `code` is
non-zero, and then carries that status code together with the supplied
context message (the call sites pass an empty message when none was
supplied); on zero status it succeeds, and in either case the only
effect is the inspection itself: memory, engine state and the stored
database handle are unchanged (the instrumentation trace records just
the status read). -/
theorem C4_ensure_status_iff {σ : Type} (st : St σ) (p : Nat) (msg : List Nat)
    (code : Nat) (h : st.mem.readUint32Le p = some code) :
    ((∃ e st2, ensureStatusCodeSuccess st p msg = (Except.error e, st2)) ↔ code ≠ 0) ∧
    (code ≠ 0 → ensureStatusCodeSuccess st p msg =
        (Except.error (HostError.engineError code msg), logRead st p 4)) ∧
    (code = 0 → ensureStatusCodeSuccess st p msg = (Except.ok (), logRead st p 4)) ∧
    (logRead st p 4).mem = st.mem ∧ (logRead st p 4).eng = st.eng ∧
    (logRead st p 4).dbHandle = st.dbHandle := by
  unfold ensureStatusCodeSuccess
  rw [h]
  by_cases hc : code = 0 <;> simp [hc, logRead]

/-- Witness for C4: over `stA` the status at 16 is 0 and the check
succeeds; over `stB` it is 1 and the check fails with that status and
the supplied message. -/
theorem C4_witness :
    ensureStatusCodeSuccess stA 16 [] = (Except.ok (), logRead stA 16 4) ∧
    ensureStatusCodeSuccess stB 16 [65] =
      (Except.error (HostError.engineError 1 [65]), logRead stB 16 4) := by
  constructor
  · exact (C4_ensure_status_iff stA 16 [] 0 (by rfl)).2.2.1 rfl
  · exact (C4_ensure_status_iff stB 16 [65] 1 (by rfl)).2.1 (by decide)

/-- C5: a successful allocateString returns a pair whose length part is
exactly the byte length of the input, and reading that many bytes back
at the returned pointer (every host access truncates addresses to
32 bits, hence the u32; for an in-range pointer also verbatim)
immediately afterwards yields exactly the written bytes. -/
theorem C5_alloc_roundtrip {σ : Type} (E : Engine σ) (str : List Nat) (st : St σ)
    (ptr len : Nat) (st2 : St σ)
    (h : allocateString E str st = (Except.ok (ptr, len), st2)) :
    len = str.length ∧ st2.mem.read (u32 ptr) str.length = some str ∧
      (ptr < 4294967296 → st2.mem.read ptr str.length = some str) := by
  unfold allocateString at h
  cases hcf : callFunction E "allocate" (ExtCall.alloc str.length 0) st with
  | mk r st1 =>
  rw [hcf] at h
  cases r with
  | error e => exact absurd h (by simp)
  | ok res =>
    dsimp only at h
    cases hh : res.head? with
    | none => rw [hh] at h; exact absurd h (by simp)
    | some p =>
      rw [hh] at h
      dsimp only at h
      cases hw : st1.mem.write (u32 p) str with
      | none => rw [hw] at h; exact absurd h (by simp)
      | some m2 =>
        rw [hw] at h
        simp only [Prod.mk.injEq, Except.ok.injEq] at h
        obtain ⟨⟨hp, hlen⟩, hst⟩ := h
        have hread := Mem.write_read st1.mem m2 (u32 p) str hw
        have hmem : st2.mem = m2 := by rw [← hst]
        refine ⟨hlen.symm, by rw [hmem, ← hp]; exact hread, ?_⟩
        intro hlt
        have hu : u32 p = p := by rw [hp]; exact Nat.mod_eq_of_lt hlt
        rw [hmem, ← hp, ← hu]
        exact hread

/-- Witness for C5: allocating the one-byte string [81] against `engA`
succeeds with pointer 32 and length 1, and reading it back yields it. -/
theorem C5_witness :
    (1 = ([81] : List Nat).length) ∧
      (allocateString engA [81] stA).2.mem.read (u32 32) [81].length = some [81] := by
  have h := C5_alloc_roundtrip engA [81] stA 32 1 (allocateString engA [81] stA).2 rfl
  exact ⟨h.1, h.2.1⟩

/-- C6: host accesses of guest memory are never truncated or
zero-filled.  A read fails exactly when the range extends past the
current memory size (the host turns that failure into a fatal panic, the
realisation of MemoryAccessError); a successful read returns exactly the
requested in-bounds range in full; a write fails exactly when out of
bounds; a successful readText materialises a fully in-bounds range, and
when the engine-supplied text range is out of bounds readText aborts
with the corresponding panic instead of returning data. -/
theorem C6_memory_access (σ : Type) :
    (∀ (m : Mem) (p n : Nat), m.read p n = none ↔ m.size < p + n) ∧
    (∀ (m : Mem) (p n : Nat) (bs : List Nat), m.read p n = some bs →
      p + n ≤ m.size ∧ bs.length = n ∧ bs = (m.data.drop p).take n) ∧
    (∀ (m : Mem) (p : Nat) (bs : List Nat),
      m.write p bs = none ↔ m.size < p + bs.length) ∧
    (∀ (E : Engine σ) (stmt col : Nat) (st st3 : St σ) (raw : List Nat),
      readText E stmt col st = (Except.ok raw, st3) →
      ∃ p n, p + n ≤ st3.mem.size ∧ raw.length = n ∧ st3.mem.read p n = some raw) ∧
    (∀ (E : Engine σ) (stmt col : Nat) (st st1 st2 st3 : St σ)
       (r1 r2 r3 : List Nat) (tp ts : Nat),
      callFunction E "sqlite3_column_text" (ExtCall.columnText stmt col) st =
        (Except.ok r1, st1) →
      callFunction E "get_result_ptr" ExtCall.getResultPtr st1 = (Except.ok r2, st2) →
      callFunction E "get_result_size" ExtCall.getResultSize st2 = (Except.ok r3, st3) →
      r2.head? = some tp → r3.head? = some ts →
      st3.mem.read (u32 tp) (u32 ts) = none →
      readText E stmt col st =
        (Except.error (HostError.hostPanic "failed to read text"),
         logRead st3 (u32 tp) (u32 ts))) := by
  refine ⟨Mem.read_eq_none_iff, ?_, Mem.write_eq_none_iff, ?_, ?_⟩
  · intro m p n bs h
    obtain ⟨h1, h2, h3⟩ := Mem.read_eq_some m p n bs h
    exact ⟨h1, h3, h2⟩
  · intro E stmt col st st3 raw h
    unfold readText at h
    cases hc1 : callFunction E "sqlite3_column_text" (ExtCall.columnText stmt col) st with
    | mk r1 st1 =>
    rw [hc1] at h
    cases r1 with
    | error e => exact absurd h (by simp)
    | ok _ =>
      dsimp only at h
      cases hc2 : callFunction E "get_result_ptr" ExtCall.getResultPtr st1 with
      | mk r2 st2 =>
      rw [hc2] at h
      cases r2 with
      | error e => exact absurd h (by simp)
      | ok textPtrRes =>
        dsimp only at h
        cases hc3 : callFunction E "get_result_size" ExtCall.getResultSize st2 with
        | mk r3 st3x =>
        rw [hc3] at h
        cases r3 with
        | error e => exact absurd h (by simp)
        | ok textSizeRes =>
          dsimp only at h
          cases hh1 : textPtrRes.head? with
          | none => rw [hh1] at h; exact absurd h (by simp)
          | some tp =>
            rw [hh1] at h
            dsimp only at h
            cases hh2 : textSizeRes.head? with
            | none => rw [hh2] at h; exact absurd h (by simp)
            | some ts =>
              rw [hh2] at h
              dsimp only at h
              cases hr : st3x.mem.read (u32 tp) (u32 ts) with
              | none => rw [hr] at h; exact absurd h (by simp)
              | some raw2 =>
                rw [hr] at h
                simp only [Prod.mk.injEq, Except.ok.injEq] at h
                obtain ⟨hraw, hst⟩ := h
                have hmem : st3.mem = st3x.mem := by rw [← hst]; rfl
                obtain ⟨hb, hslice, hlen⟩ :=
                  Mem.read_eq_some st3x.mem (u32 tp) (u32 ts) raw2 hr
                refine ⟨u32 tp, u32 ts, by rw [hmem]; exact hb, ?_, ?_⟩
                · rw [← hraw]; exact hlen
                · rw [hmem, ← hraw]; exact hr
  · intro E stmt col st st1 st2 st3 r1 r2 r3 tp ts h1 h2 h3 h4 h5 h6
    unfold readText
    rw [h1]
    dsimp only
    rw [h2]
    dsimp only
    rw [h3]
    dsimp only
    rw [h4]
    dsimp only
    rw [h5]
    dsimp only
    rw [h6]

/-- Witness for C6: concrete in- and out-of-bounds accesses on the
64-byte memories, and an out-of-bounds text range aborting readText. -/
theorem C6_witness :
    memA.read 60 10 = none ∧
    memB.write 63 [1, 2] = none ∧
    (∃ p n, p + n ≤ (readText engA 7 1 stA).2.mem.size ∧
      ([0, 0] : List Nat).length = n ∧
      (readText engA 7 1 stA).2.mem.read p n = some [0, 0]) := by
  refine ⟨((C6_memory_access Unit).1 memA 60 10).mpr (by decide),
    ((C6_memory_access Unit).2.2.1 memB 63 [1, 2]).mpr (by decide),
    (C6_memory_access Unit).2.2.2.1 engA 7 1 stA (readText engA 7 1 stA).2 [0, 0] rfl⟩

/-- C7: readInt returns exactly the integer-column export's raw return
value (the wasm-level i64, which Go's int cast recovers from its u64
encoding), and performs no envelope decoding and no guest-memory
access: the resulting state is exactly the state after the single
column-read call, and the trace gains exactly that one call event (no
envelope-accessor call events and no memory-read events). -/
theorem C7_read_int_direct {σ : Type} (E : Engine σ) (stmt col : Nat) (st : St σ)
    (res : List Nat) (m2 : Mem) (e2 : σ) (r : Nat)
    (hexp : "sqlite3_column_int64" ∈ E.exports)
    (hcall : E.call st.eng st.mem (ExtCall.columnInt stmt col) = some (res, m2, e2))
    (hres : res.head? = some r) :
    readInt E stmt col st =
      (Except.ok (toInt64 r),
       { st with mem := m2, eng := e2,
                 trace := st.trace ++
                   [Event.call "sqlite3_column_int64" (ExtCall.columnInt stmt col) res] }) := by
  unfold readInt callFunction
  rw [if_pos hexp, hcall]
  simp [hres]

/-- Witness for C7: against `engA`, reading column 0 of statement 7
yields exactly the export's result 9, with only the one call traced. -/
theorem C7_witness :
    readInt engA 7 0 stA =
      (Except.ok (toInt64 9),
       { stA with mem := memA, eng := (),
                  trace := stA.trace ++
                    [Event.call "sqlite3_column_int64" (ExtCall.columnInt 7 0) [9]] }) :=
  C7_read_int_direct engA 7 0 stA [9] memA () 9 (by decide) rfl rfl

/-- C8: calling an exported function fails with the callError panic both
when the name is missing from the export table and when the invocation
traps inside the module; in both cases the state is returned untouched
(the call is not retried and no interaction is recorded), and the error
propagates unchanged through execStep to the step loop of the current
query. -/
theorem C8_call_failures {σ : Type} (E : Engine σ) (name : String) (c : ExtCall)
    (st : St σ) :
    (name ∉ E.exports →
      callFunction E name c st = (Except.error (HostError.callError name), st)) ∧
    (E.call st.eng st.mem c = none →
      callFunction E name c st = (Except.error (HostError.callError name), st)) ∧
    (∀ stmt e st1,
      callFunction E "sqlite3_step" (ExtCall.step stmt) st = (Except.error e, st1) →
      execStep E stmt st = (Except.error e, st1)) ∧
    (∀ stmt fuel e st1, execStep E stmt st = (Except.error e, st1) →
      stepLoop E stmt (fuel + 1) st = (Except.error e, st1)) := by
  refine ⟨?_, ?_, ?_, ?_⟩
  · intro h
    simp [callFunction, h]
  · intro h
    by_cases hc : name ∈ E.exports <;> simp [callFunction, hc, h]
  · intro stmt e st1 h
    unfold execStep
    rw [h]
  · intro stmt fuel e st1 h
    unfold stepLoop
    rw [h]

/-- Witness for C8: a missing export and a trapping engine both yield
the callError abort, and it propagates through the step loop. -/
theorem C8_witness :
    callFunction engNoExports "sqlite3_step" (ExtCall.step 1) stA =
      (Except.error (HostError.callError "sqlite3_step"), stA) ∧
    callFunction engTrap "sqlite3_step" (ExtCall.step 1) stA =
      (Except.error (HostError.callError "sqlite3_step"), stA) ∧
    stepLoop engTrap 1 4 stA =
      (Except.error (HostError.callError "sqlite3_step"), stA) := by
  refine ⟨(C8_call_failures engNoExports "sqlite3_step" (ExtCall.step 1) stA).1 (by simp [engNoExports]),
    (C8_call_failures engTrap "sqlite3_step" (ExtCall.step 1) stA).2.1 rfl, ?_⟩
  refine (C8_call_failures engTrap "sqlite3_step" (ExtCall.step 1) stA).2.2.2 1 3
    (HostError.callError "sqlite3_step") stA ?_
  exact (C8_call_failures engTrap "sqlite3_step" (ExtCall.step 1) stA).2.2.1 1
    (HostError.callError "sqlite3_step") stA
    ((C8_call_failures engTrap "sqlite3_step" (ExtCall.step 1) stA).2.1 rfl)

/-- Shape of a successful call: the trace gains exactly the one call
event and the stored database handle is untouched. -/
theorem callFunction_ok_shape {σ : Type} {E : Engine σ} {name : String} {c : ExtCall}
    {st : St σ} {res : List Nat} {st1 : St σ}
    (h : callFunction E name c st = (Except.ok res, st1)) :
    st1.trace = st.trace ++ [Event.call name c res] ∧ st1.dbHandle = st.dbHandle := by
  unfold callFunction at h
  by_cases hm : name ∈ E.exports
  · rw [if_pos hm] at h
    cases hc : E.call st.eng st.mem c with
    | none => rw [hc] at h; exact absurd h (by simp)
    | some t =>
      obtain ⟨r, m2, e2⟩ := t
      rw [hc] at h
      dsimp only at h
      simp only [Prod.mk.injEq, Except.ok.injEq] at h
      obtain ⟨hres, hst⟩ := h
      rw [← hst]
      exact ⟨by rw [hres], rfl⟩
  · rw [if_neg hm] at h
    exact absurd h (by simp)

/-- Shape of a successful execStep: exactly one successful step call,
whose first raw result is the returned code. -/
theorem execStep_ok {σ : Type} {E : Engine σ} {stmt : Nat} {st : St σ}
    {rc : Nat} {st1 : St σ}
    (h : execStep E stmt st = (Except.ok rc, st1)) :
    ∃ res, callFunction E "sqlite3_step" (ExtCall.step stmt) st = (Except.ok res, st1) ∧
      res.head? = some rc := by
  unfold execStep at h
  cases hc : callFunction E "sqlite3_step" (ExtCall.step stmt) st with
  | mk r stc =>
  rw [hc] at h
  cases r with
  | error e => exact absurd h (by simp)
  | ok res =>
    dsimp only at h
    cases hh : res.head? with
    | none => rw [hh] at h; exact absurd h (by simp)
    | some r0 =>
      rw [hh] at h
      simp only [Prod.mk.injEq, Except.ok.injEq] at h
      obtain ⟨hr0, hstc⟩ := h
      rw [← hr0, ← hstc]
      exact ⟨res, rfl, hh⟩

/-- C3: rows are accumulated exactly while the step export reports 100.
When a step returns a code other than 100, the loop ends at once with
the row list accumulated so far and no error: for the very first step
this yields the empty list, with no further step or column-read calls
(the state after the loop is exactly the state after that single step
call, whose trace gained just the one step event).  When a step returns
100, one row is read (integer column 0, text column 1) and the loop
continues with the remaining fuel. -/
theorem C3_step_loop_protocol {σ : Type} (E : Engine σ) (stmt : Nat)
    (st st1 : St σ) (fuel rc : Nat)
    (h : execStep E stmt st = (Except.ok rc, st1)) :
    (rc ≠ 100 →
      stepLoop E stmt (fuel + 1) st = (Except.ok [], st1) ∧
      ∃ res, st1.trace = st.trace ++ [Event.call "sqlite3_step" (ExtCall.step stmt) res]) ∧
    (rc = 100 → ∀ (id : Int) (st2 : St σ) (name : List Nat) (st3 : St σ)
        (rest : List user) (st4 : St σ),
      readInt E stmt 0 st1 = (Except.ok id, st2) →
      readText E stmt 1 st2 = (Except.ok name, st3) →
      stepLoop E stmt fuel st3 = (Except.ok rest, st4) →
      stepLoop E stmt (fuel + 1) st =
        (Except.ok ({ id := id, name := name } :: rest), st4)) := by
  constructor
  · intro hrc
    constructor
    · unfold stepLoop
      rw [h]
      dsimp only
      rw [if_neg (by simpa [SQLITE_ROW] using hrc)]
    · obtain ⟨res, hcf, hh⟩ := execStep_ok h
      exact ⟨res, (callFunction_ok_shape hcf).1⟩
  · intro hrc id st2 name st3 rest st4 h1 h2 h3
    unfold stepLoop
    rw [h]
    dsimp only
    rw [if_pos (by simpa [SQLITE_ROW] using hrc)]
    rw [h1]
    dsimp only
    rw [h2]
    dsimp only
    rw [h3]

/-- Witness for C3: against `engA` the first step reports 101, so the
query yields the empty row list without error; against `engRow` the
first step reports 100 and the second 101, so exactly one row (integer
9, text bytes of columns 0 and 1) is accumulated. -/
theorem C3_witness :
    stepLoop engA 7 1 stA = (Except.ok [], (execStep engA 7 stA).2) ∧
    (stepLoop engRow 7 2 stR).1 =
      Except.ok [{ id := toInt64 9, name := [0, 0] }] := by
  constructor
  · exact ((C3_step_loop_protocol engA 7 stA (execStep engA 7 stA).2 0 101 rfl).1
      (by decide)).1
  · have h := (C3_step_loop_protocol engRow 7 stR (execStep engRow 7 stR).2 1 100 rfl).2
      rfl (toInt64 9) (readInt engRow 7 0 (execStep engRow 7 stR).2).2 [0, 0]
      (readText engRow 7 1 (readInt engRow 7 0 (execStep engRow 7 stR).2).2).2 []
      (stepLoop engRow 7 1
        (readText engRow 7 1 (readInt engRow 7 0 (execStep engRow 7 stR).2).2).2).2
      rfl rfl rfl
    exact congrArg Prod.fst h

/-- C9: even after a prepare whose envelope status is success, a
statement handle reading as 0 aborts the query with the same panic as an
unreadable handle; the step loop is never entered (the resulting state
is exactly the state of the handle read, with no step call events). -/
theorem C9_zero_statement_handle {σ : Type} (E : Engine σ) (query : List Nat)
    (fuel : Nat) (st st1 st2 st3 st4 : St σ) (qp qs : Nat)
    (r1 res : List Nat) (res0 : Nat)
    (h1 : allocateString E query st = (Except.ok (qp, qs), st1))
    (h2 : callFunction E "sqlite3_prepare_v2"
      (ExtCall.prepare [st1.dbHandle, qp, qs]) st1 = (Except.ok r1, st2))
    (h3 : callFunction E "get_result_ptr" ExtCall.getResultPtr st2 = (Except.ok res, st3))
    (h4 : res.head? = some res0)
    (h5 : ensureStatusCodeSuccess st3 (u32 res0) failedToPrepareMsg = (Except.ok (), st4))
    (h6 : st4.mem.readUint32Le (u32 (res0 + 4)) = some 0) :
    execSelectUsers E query fuel st =
      (Except.error (HostError.hostPanic "failed to read prepared statement"),
       logRead st4 (u32 (res0 + 4)) 4) := by
  unfold execSelectUsers
  rw [h1]
  dsimp only
  rw [h2]
  dsimp only
  rw [h3]
  dsimp only
  rw [h4]
  dsimp only
  rw [h5]
  dsimp only
  rw [h6]
  dsimp only
  rfl

/-- Witness for C9: against `engA` over the all-zero memory (prepare
status 0, statement-handle field 0) the query aborts with the
prepared-statement panic. -/
theorem C9_witness :
    (execSelectUsers engA [81] 9 stC).1 =
      Except.error (HostError.hostPanic "failed to read prepared statement") := by
  have h := C9_zero_statement_handle engA [81] 9 stC
    (allocateString engA [81] stC).2
    (callFunction engA "sqlite3_prepare_v2"
      (ExtCall.prepare [(allocateString engA [81] stC).2.dbHandle, 32, 1])
      (allocateString engA [81] stC).2).2
    (callFunction engA "get_result_ptr" ExtCall.getResultPtr
      (callFunction engA "sqlite3_prepare_v2"
        (ExtCall.prepare [(allocateString engA [81] stC).2.dbHandle, 32, 1])
        (allocateString engA [81] stC).2).2).2
    (ensureStatusCodeSuccess
      (callFunction engA "get_result_ptr" ExtCall.getResultPtr
        (callFunction engA "sqlite3_prepare_v2"
          (ExtCall.prepare [(allocateString engA [81] stC).2.dbHandle, 32, 1])
          (allocateString engA [81] stC).2).2).2
      (u32 16) failedToPrepareMsg).2
    32 1 [0] [16] 16 rfl rfl rfl rfl rfl rfl
  exact congrArg Prod.fst h

/-- C1 (amended): for every successful open and every successful
prepare, the handle the client returns is the 4-byte little-endian
value stored in guest memory at envelope base + 4, i.e. the value of
the envelope's auxiliary-pointer field itself (where the base is the
u32-truncated result of the envelope-pointer accessor call) — not the
value stored at auxPointer + 4.  The open part states that the stored
database handle is exactly that field value; the prepare part states
that the statement handle driven through the step loop is exactly that
field value. -/
theorem C1_handle_is_aux_field {σ : Type} :
    (∀ (E : Engine σ) (st st1 st2 st3 st4 st5 : St σ) (p1 s1 p2 s2 : Nat)
       (r res : List Nat) (res0 hdl : Nat),
      allocateString E memoryDbName st = (Except.ok (p1, s1), st1) →
      allocateString E [] st1 = (Except.ok (p2, s2), st2) →
      callFunction E "sqlite3_open_v2"
        (ExtCall.openV2 [p1, s1, 6, p2, s2]) st2 = (Except.ok r, st3) →
      callFunction E "get_result_ptr" ExtCall.getResultPtr st3 = (Except.ok res, st4) →
      res.head? = some res0 →
      ensureStatusCodeSuccess st4 (u32 res0) dbPointerMsg = (Except.ok (), st5) →
      st5.mem.readUint32Le (u32 (res0 + 4)) = some hdl →
      newSqlModule E st =
        (Except.ok (), { logRead st5 (u32 (res0 + 4)) 4 with dbHandle := hdl })) ∧
    (∀ (E : Engine σ) (query : List Nat) (fuel : Nat) (st st1 st2 st3 st4 : St σ)
       (qp qs : Nat) (r res : List Nat) (res0 stmt : Nat),
      allocateString E query st = (Except.ok (qp, qs), st1) →
      callFunction E "sqlite3_prepare_v2"
        (ExtCall.prepare [st1.dbHandle, qp, qs]) st1 = (Except.ok r, st2) →
      callFunction E "get_result_ptr" ExtCall.getResultPtr st2 = (Except.ok res, st3) →
      res.head? = some res0 →
      ensureStatusCodeSuccess st3 (u32 res0) failedToPrepareMsg = (Except.ok (), st4) →
      st4.mem.readUint32Le (u32 (res0 + 4)) = some stmt →
      stmt ≠ 0 →
      execSelectUsers E query fuel st =
        stepLoop E stmt fuel (logRead st4 (u32 (res0 + 4)) 4)) := by
  constructor
  · intro E st st1 st2 st3 st4 st5 p1 s1 p2 s2 r res res0 hdl
      h1 h2 h3 h4 h5 h6 h7
    unfold newSqlModule
    rw [h1]
    dsimp only
    rw [h2]
    dsimp only
    rw [h3]
    dsimp only
    rw [h4]
    dsimp only
    rw [h5]
    dsimp only
    rw [h6]
    dsimp only
    rw [h7]
  · intro E query fuel st st1 st2 st3 st4 qp qs r res res0 stmt
      h1 h2 h3 h4 h5 h6 h7
    unfold execSelectUsers
    rw [h1]
    dsimp only
    rw [h2]
    dsimp only
    rw [h3]
    dsimp only
    rw [h4]
    dsimp only
    rw [h5]
    dsimp only
    rw [h6]
    dsimp only
    rw [if_neg h7]

/-- C1 counterexample: against `engA` (envelope base 16), open succeeds
and the client stores handle 7, which is the u32 at base + 4 = 20 (the
auxiliary-pointer field).  The u32 stored at auxPointer + 4 = 11 is 0,
which differs from the returned handle, so the claim's dereferencing
description (handle = u32 at auxPointer + 4, with auxPointer the field
value) does not hold of the code. -/
theorem C1_counterexample :
    (newSqlModule engA stA).1 = Except.ok () ∧
    (newSqlModule engA stA).2.dbHandle = 7 ∧
    (newSqlModule engA stA).2.mem.readUint32Le (u32 (16 + 4)) = some 7 ∧
    (newSqlModule engA stA).2.mem.readUint32Le (7 + 4) = some 0 ∧
    (7 : Nat) ≠ 0 :=
  ⟨rfl, rfl, rfl, rfl, by decide⟩

/-- Witness for the amended C1: the concrete open against `engA` yields
exactly the auxiliary-pointer field value 7 as the stored handle, and
the concrete prepare enters the step loop with handle 7, yielding the
empty row list. -/
theorem C1_witness :
    ((newSqlModule engA stA).1 = Except.ok () ∧
      (newSqlModule engA stA).2.dbHandle = 7) ∧
    (execSelectUsers engA [81] 1 stA).1 = Except.ok [] := by
  refine ⟨⟨?_, ?_⟩, ?_⟩
  · exact congrArg Prod.fst ((C1_handle_is_aux_field (σ := Unit)).1 engA stA
      (allocateString engA memoryDbName stA).2
      (allocateString engA [] (allocateString engA memoryDbName stA).2).2
      (callFunction engA "sqlite3_open_v2" (ExtCall.openV2 [32, 8, 6, 32, 0])
        (allocateString engA [] (allocateString engA memoryDbName stA).2).2).2
      (callFunction engA "get_result_ptr" ExtCall.getResultPtr
        (callFunction engA "sqlite3_open_v2" (ExtCall.openV2 [32, 8, 6, 32, 0])
          (allocateString engA [] (allocateString engA memoryDbName stA).2).2).2).2
      (ensureStatusCodeSuccess
        (callFunction engA "get_result_ptr" ExtCall.getResultPtr
          (callFunction engA "sqlite3_open_v2" (ExtCall.openV2 [32, 8, 6, 32, 0])
            (allocateString engA [] (allocateString engA memoryDbName stA).2).2).2).2
        (u32 16) dbPointerMsg).2
      32 8 32 0 [0] [16] 16 7 rfl rfl rfl rfl rfl rfl rfl)
  · exact congrArg (fun p => p.2.dbHandle)
      ((C1_handle_is_aux_field (σ := Unit)).1 engA stA
      (allocateString engA memoryDbName stA).2
      (allocateString engA [] (allocateString engA memoryDbName stA).2).2
      (callFunction engA "sqlite3_open_v2" (ExtCall.openV2 [32, 8, 6, 32, 0])
        (allocateString engA [] (allocateString engA memoryDbName stA).2).2).2
      (callFunction engA "get_result_ptr" ExtCall.getResultPtr
        (callFunction engA "sqlite3_open_v2" (ExtCall.openV2 [32, 8, 6, 32, 0])
          (allocateString engA [] (allocateString engA memoryDbName stA).2).2).2).2
      (ensureStatusCodeSuccess
        (callFunction engA "get_result_ptr" ExtCall.getResultPtr
          (callFunction engA "sqlite3_open_v2" (ExtCall.openV2 [32, 8, 6, 32, 0])
            (allocateString engA [] (allocateString engA memoryDbName stA).2).2).2).2
        (u32 16) dbPointerMsg).2
      32 8 32 0 [0] [16] 16 7 rfl rfl rfl rfl rfl rfl rfl)
  · exact congrArg Prod.fst ((C1_handle_is_aux_field (σ := Unit)).2 engA [81] 1 stA
      (allocateString engA [81] stA).2
      (callFunction engA "sqlite3_prepare_v2"
        (ExtCall.prepare [(allocateString engA [81] stA).2.dbHandle, 32, 1])
        (allocateString engA [81] stA).2).2
      (callFunction engA "get_result_ptr" ExtCall.getResultPtr
        (callFunction engA "sqlite3_prepare_v2"
          (ExtCall.prepare [(allocateString engA [81] stA).2.dbHandle, 32, 1])
          (allocateString engA [81] stA).2).2).2
      (ensureStatusCodeSuccess
        (callFunction engA "get_result_ptr" ExtCall.getResultPtr
          (callFunction engA "sqlite3_prepare_v2"
            (ExtCall.prepare [(allocateString engA [81] stA).2.dbHandle, 32, 1])
            (allocateString engA [81] stA).2).2).2
        (u32 16) failedToPrepareMsg).2
      32 1 [0] [16] 16 7 rfl rfl rfl rfl rfl rfl (by decide))

/-- C2 (amended): for an execute whose envelope status is non-zero, the
reported failure carries the error message read from the byte range
whose pointer is the envelope's auxiliary-pointer field (the u32 at
base + 4) and whose length is the auxiliary-size field (the u32 at
base + 8) — not the u32s at auxPointer + 4 and auxPointer + 8; the
message has exactly the field's length, hence is non-empty exactly when
that length field is non-zero, and when the length field is zero the
message is empty and no message bytes are read (the final state shows
no read of the message range). -/
theorem C2_exec_error_message {σ : Type} (E : Engine σ) (query : List Nat)
    (st st1 st2 st3 : St σ) (qp qs : Nat) (r res : List Nat)
    (res0 mp msz code : Nat)
    (h1 : allocateString E query st = (Except.ok (qp, qs), st1))
    (h2 : callFunction E "sqlite3_exec"
      (ExtCall.exec [st1.dbHandle, qp, qs, 0, 0]) st1 = (Except.ok r, st2))
    (h3 : callFunction E "get_result_ptr" ExtCall.getResultPtr st2 = (Except.ok res, st3))
    (h4 : res.head? = some res0)
    (h5 : st3.mem.readUint32Le (u32 (res0 + 4)) = some mp)
    (h6 : st3.mem.readUint32Le (u32 (res0 + 8)) = some msz)
    (h7 : st3.mem.readUint32Le (u32 res0) = some code)
    (h8 : code ≠ 0) :
    (∀ raw, msz ≠ 0 → st3.mem.read mp msz = some raw →
      execSql E query st =
        (Except.error (HostError.engineError code raw),
         logRead (logRead (logRead (logRead st3 (u32 (res0 + 4)) 4)
           (u32 (res0 + 8)) 4) mp msz) (u32 res0) 4) ∧
      raw.length = msz ∧ raw ≠ []) ∧
    (msz = 0 →
      execSql E query st =
        (Except.error (HostError.engineError code []),
         logRead (logRead (logRead st3 (u32 (res0 + 4)) 4)
           (u32 (res0 + 8)) 4) (u32 res0) 4)) := by
  constructor
  · intro raw hm hr
    have hlen := (Mem.read_eq_some st3.mem mp msz raw hr).2.2
    refine ⟨?_, hlen, ?_⟩
    · unfold execSql
      rw [h1]
      dsimp only
      rw [h2]
      dsimp only
      rw [h3]
      dsimp only
      rw [h4]
      try dsimp only [logRead]
      rw [h5]
      try dsimp only [logRead]
      rw [h6]
      try dsimp only [logRead]
      rw [if_pos hm]
      try dsimp only [logRead]
      rw [hr]
      try dsimp only [logRead]
      unfold ensureStatusCodeSuccess
      try dsimp only [logRead]
      rw [h7]
      try dsimp only [logRead]
      rw [if_pos h8]
    · intro hnil
      rw [hnil] at hlen
      exact hm (by simpa using hlen.symm)
  · intro hz
    unfold execSql
    rw [h1]
    dsimp only
    rw [h2]
    dsimp only
    rw [h3]
    dsimp only
    rw [h4]
    try dsimp only [logRead]
    rw [h5]
    try dsimp only [logRead]
    rw [h6]
    try dsimp only [logRead]
    rw [if_neg (by simp [hz])]
    unfold ensureStatusCodeSuccess
    try dsimp only [logRead]
    rw [h7]
    try dsimp only [logRead]
    rw [if_pos h8]

/-- C2 counterexample: against `engA` over `stB` (envelope base 16 with
status 1, auxiliary-pointer field 40, auxiliary-size field 2, message
bytes [65, 66] at 40..41), the failure carries exactly the non-empty
message [65, 66] taken from the field range — yet the u32s at
auxPointer + 4 = 44 and auxPointer + 8 = 48 are both 0, so under the
claim's addressing the message range would be empty: the claim's
pointer/length offsets do not describe the code. -/
theorem C2_counterexample :
    (execSql engA [81] stB).1 = Except.error (HostError.engineError 1 [65, 66]) ∧
    (execSql engA [81] stB).2.mem.readUint32Le (u32 (16 + 4)) = some 40 ∧
    (execSql engA [81] stB).2.mem.readUint32Le (u32 (16 + 8)) = some 2 ∧
    (execSql engA [81] stB).2.mem.readUint32Le (40 + 4) = some 0 ∧
    (execSql engA [81] stB).2.mem.readUint32Le (40 + 8) = some 0 ∧
    ([65, 66] : List Nat) ≠ [] :=
  ⟨rfl, rfl, rfl, rfl, rfl, by decide⟩

/-- Witness for the amended C2: the concrete failing execute against
`engA` over `stB` reports engine status 1 with exactly the two message
bytes addressed by the envelope's own pointer/size fields. -/
theorem C2_witness :
    (execSql engA [81] stB).1 = Except.error (HostError.engineError 1 [65, 66]) ∧
    ([65, 66] : List Nat).length = 2 ∧ ([65, 66] : List Nat) ≠ [] := by
  have h := (C2_exec_error_message engA [81] stB
    (allocateString engA [81] stB).2
    (callFunction engA "sqlite3_exec"
      (ExtCall.exec [(allocateString engA [81] stB).2.dbHandle, 32, 1, 0, 0])
      (allocateString engA [81] stB).2).2
    (callFunction engA "get_result_ptr" ExtCall.getResultPtr
      (callFunction engA "sqlite3_exec"
        (ExtCall.exec [(allocateString engA [81] stB).2.dbHandle, 32, 1, 0, 0])
        (allocateString engA [81] stB).2).2).2
    32 1 [0] [16] 16 40 2 1 rfl rfl rfl rfl rfl rfl rfl (by decide)).1
    [65, 66] (by decide) rfl
  exact ⟨congrArg Prod.fst h.1, h.2.1, h.2.2⟩

/-! Frame lemmas for C10. -/

theorem frameOk_self {db : Nat} {st : St σ} (h : st.dbHandle = db) :
    FrameOk db st st :=
  ⟨h, fun _ hev => Or.inl hev⟩

theorem frameOk_trans {db : Nat} {st st1 st2 : St σ}
    (h1 : FrameOk db st st1) (h2 : FrameOk db st1 st2) : FrameOk db st st2 := by
  obtain ⟨_, hb⟩ := h1
  obtain ⟨hc, hd⟩ := h2
  refine ⟨hc, fun ev hev => ?_⟩
  rcases hd ev hev with h | h
  · exact hb ev h
  · exact Or.inr h

theorem frameOk_of_shape {db : Nat} {st st2 : St σ} (h : st2.dbHandle = db)
    (evs : List Event) (htr : st2.trace = st.trace ++ evs)
    (hok : ∀ ev ∈ evs, handleArgsOk db ev) : FrameOk db st st2 := by
  refine ⟨h, fun ev hev => ?_⟩
  rw [htr] at hev
  rcases List.mem_append.mp hev with h1 | h1
  · exact Or.inl h1
  · exact Or.inr (hok ev h1)

theorem callFunction_frame (E : Engine σ) (name : String) (c : ExtCall)
    (st : St σ) (db : Nat) (h : st.dbHandle = db)
    (hok : ∀ res, handleArgsOk db (Event.call name c res)) :
    FrameOk db st (callFunction E name c st).2 := by
  unfold callFunction
  by_cases hm : name ∈ E.exports
  · rw [if_pos hm]
    cases hc : E.call st.eng st.mem c with
    | none => exact frameOk_self h
    | some t =>
      obtain ⟨res, m2, e2⟩ := t
      refine frameOk_of_shape h [Event.call name c res] rfl ?_
      intro ev hev
      rw [List.mem_singleton] at hev
      subst hev
      exact hok res
  · rw [if_neg hm]
    exact frameOk_self h

theorem allocateString_frame (E : Engine σ) (s : List Nat) (st : St σ) :
    FrameOk st.dbHandle st (allocateString E s st).2 := by
  unfold allocateString
  cases hcf : callFunction E "allocate" (ExtCall.alloc s.length 0) st with
  | mk r st1 =>
  have hf1 : FrameOk st.dbHandle st st1 := by
    have h := callFunction_frame E "allocate" (ExtCall.alloc s.length 0) st
      st.dbHandle rfl (fun _ => trivial)
    rw [hcf] at h
    exact h
  cases r with
  | error e => exact hf1
  | ok res =>
    dsimp only
    cases hh : res.head? with
    | none => exact hf1
    | some p =>
      dsimp only
      cases hw : st1.mem.write (u32 p) s with
      | none =>
        refine frameOk_trans hf1
          (frameOk_of_shape hf1.1 [Event.memWrite (u32 p) s.length] rfl ?_)
        intro ev hev
        rw [List.mem_singleton] at hev
        subst hev
        trivial
      | some m2 =>
        refine frameOk_trans hf1
          (frameOk_of_shape hf1.1 [Event.memWrite (u32 p) s.length] rfl ?_)
        intro ev hev
        rw [List.mem_singleton] at hev
        subst hev
        trivial

theorem ensure_snd (st : St σ) (p : Nat) (msg : List Nat) :
    (ensureStatusCodeSuccess st p msg).2 = logRead st p 4 := by
  unfold ensureStatusCodeSuccess
  cases h : st.mem.readUint32Le p with
  | none => rfl
  | some code =>
    dsimp only
    by_cases hc : code ≠ 0
    · rw [if_pos hc]
    · rw [if_neg hc]

theorem ensure_frame (st : St σ) (p : Nat) (msg : List Nat) :
    FrameOk st.dbHandle st (ensureStatusCodeSuccess st p msg).2 := by
  rw [ensure_snd]
  refine frameOk_of_shape rfl [Event.memRead p 4] rfl ?_
  intro ev hev
  rw [List.mem_singleton] at hev
  subst hev
  trivial

theorem logRead_frame {db : Nat} {st st1 : St σ} (h : FrameOk db st st1)
    (p n : Nat) : FrameOk db st (logRead st1 p n) := by
  refine frameOk_trans h (frameOk_of_shape h.1 [Event.memRead p n] rfl ?_)
  intro ev hev
  rw [List.mem_singleton] at hev
  subst hev
  trivial

theorem execStep_frame (E : Engine σ) (stmt : Nat) (st : St σ) :
    FrameOk st.dbHandle st (execStep E stmt st).2 := by
  unfold execStep
  cases hcf : callFunction E "sqlite3_step" (ExtCall.step stmt) st with
  | mk r st1 =>
  have hf1 : FrameOk st.dbHandle st st1 := by
    have h := callFunction_frame E "sqlite3_step" (ExtCall.step stmt) st
      st.dbHandle rfl (fun _ => trivial)
    rw [hcf] at h
    exact h
  cases r with
  | error e => exact hf1
  | ok res =>
    dsimp only
    cases hh : res.head? with
    | none => exact hf1
    | some r0 => exact hf1

theorem readInt_frame (E : Engine σ) (stmt col : Nat) (st : St σ) :
    FrameOk st.dbHandle st (readInt E stmt col st).2 := by
  unfold readInt
  cases hcf : callFunction E "sqlite3_column_int64" (ExtCall.columnInt stmt col) st with
  | mk r st1 =>
  have hf1 : FrameOk st.dbHandle st st1 := by
    have h := callFunction_frame E "sqlite3_column_int64" (ExtCall.columnInt stmt col)
      st st.dbHandle rfl (fun _ => trivial)
    rw [hcf] at h
    exact h
  cases r with
  | error e => exact hf1
  | ok res =>
    dsimp only
    cases hh : res.head? with
    | none => exact hf1
    | some r0 => exact hf1

theorem readText_frame (E : Engine σ) (stmt col : Nat) (st : St σ) :
    FrameOk st.dbHandle st (readText E stmt col st).2 := by
  unfold readText
  cases hc1 : callFunction E "sqlite3_column_text" (ExtCall.columnText stmt col) st with
  | mk r1 st1 =>
  have hf1 : FrameOk st.dbHandle st st1 := by
    have h := callFunction_frame E "sqlite3_column_text" (ExtCall.columnText stmt col)
      st st.dbHandle rfl (fun _ => trivial)
    rw [hc1] at h
    exact h
  cases r1 with
  | error e => exact hf1
  | ok _ =>
    dsimp only
    cases hc2 : callFunction E "get_result_ptr" ExtCall.getResultPtr st1 with
    | mk r2 st2 =>
    have hf2 : FrameOk st.dbHandle st st2 := by
      refine frameOk_trans hf1 ?_
      have h := callFunction_frame E "get_result_ptr" ExtCall.getResultPtr st1
        st1.dbHandle rfl (fun _ => trivial)
      rw [hc2, hf1.1] at h
      exact h
    cases r2 with
    | error e => exact hf2
    | ok textPtrRes =>
      dsimp only
      cases hc3 : callFunction E "get_result_size" ExtCall.getResultSize st2 with
      | mk r3 st3 =>
      have hf3 : FrameOk st.dbHandle st st3 := by
        refine frameOk_trans hf2 ?_
        have h := callFunction_frame E "get_result_size" ExtCall.getResultSize st2
          st2.dbHandle rfl (fun _ => trivial)
        rw [hc3, hf2.1] at h
        exact h
      cases r3 with
      | error e => exact hf3
      | ok textSizeRes =>
        dsimp only
        cases hh1 : textPtrRes.head? with
        | none => exact hf3
        | some tp =>
          dsimp only
          cases hh2 : textSizeRes.head? with
          | none => exact hf3
          | some ts =>
            dsimp only
            cases hr : st3.mem.read (u32 tp) (u32 ts) with
            | none => exact logRead_frame hf3 (u32 tp) (u32 ts)
            | some raw => exact logRead_frame hf3 (u32 tp) (u32 ts)

theorem stepLoop_frame (E : Engine σ) (stmt : Nat) :
    ∀ (fuel : Nat) (st : St σ), FrameOk st.dbHandle st (stepLoop E stmt fuel st).2 := by
  intro fuel
  induction fuel with
  | zero => intro st; exact frameOk_self rfl
  | succ n ih =>
    intro st
    unfold stepLoop
    cases hs : execStep E stmt st with
    | mk r st1 =>
    have hf1 : FrameOk st.dbHandle st st1 := by
      have h := execStep_frame E stmt st
      rw [hs] at h
      exact h
    cases r with
    | error e => exact hf1
    | ok rc =>
      dsimp only
      by_cases hrc : rc = SQLITE_ROW
      · rw [if_pos hrc]
        cases hri : readInt E stmt 0 st1 with
        | mk ri st2 =>
        have hf2 : FrameOk st.dbHandle st st2 := by
          refine frameOk_trans hf1 ?_
          have h := readInt_frame E stmt 0 st1
          rw [hri, hf1.1] at h
          exact h
        cases ri with
        | error e => exact hf2
        | ok id =>
          dsimp only
          cases hrt : readText E stmt 1 st2 with
          | mk rt st3 =>
          have hf3 : FrameOk st.dbHandle st st3 := by
            refine frameOk_trans hf2 ?_
            have h := readText_frame E stmt 1 st2
            rw [hrt, hf2.1] at h
            exact h
          cases rt with
          | error e => exact hf3
          | ok nm =>
            dsimp only
            cases hsl : stepLoop E stmt n st3 with
            | mk rl st4 =>
            have hf4 : FrameOk st.dbHandle st st4 := by
              refine frameOk_trans hf3 ?_
              have h := ih st3
              rw [hsl, hf3.1] at h
              exact h
            cases rl with
            | error e => exact hf4
            | ok rest => exact hf4
      · rw [if_neg hrc]
        exact hf1

theorem execSql_frame (E : Engine σ) (q : List Nat) (st : St σ) :
    FrameOk st.dbHandle st (execSql E q st).2 := by
  unfold execSql
  cases hal : allocateString E q st with
  | mk ra st1 =>
  have hf1 : FrameOk st.dbHandle st st1 := by
    have h := allocateString_frame E q st
    rw [hal] at h
    exact h
  cases ra with
  | error e => exact hf1
  | ok pq =>
    obtain ⟨qp, qs⟩ := pq
    dsimp only
    cases hex : callFunction E "sqlite3_exec"
        (ExtCall.exec [st1.dbHandle, qp, qs, 0, 0]) st1 with
    | mk re st2 =>
    have hf2 : FrameOk st.dbHandle st st2 := by
      refine frameOk_trans hf1 ?_
      have h := callFunction_frame E "sqlite3_exec"
        (ExtCall.exec [st1.dbHandle, qp, qs, 0, 0]) st1 st1.dbHandle rfl
        (fun _ => by simp [handleArgsOk])
      rw [hex, hf1.1] at h
      exact h
    cases re with
    | error e => exact hf2
    | ok _ =>
      dsimp only
      cases hgr : callFunction E "get_result_ptr" ExtCall.getResultPtr st2 with
      | mk rg st3 =>
      have hf3 : FrameOk st.dbHandle st st3 := by
        refine frameOk_trans hf2 ?_
        have h := callFunction_frame E "get_result_ptr" ExtCall.getResultPtr st2
          st2.dbHandle rfl (fun _ => trivial)
        rw [hgr, hf2.1] at h
        exact h
      cases rg with
      | error e => exact hf3
      | ok res =>
        dsimp only
        cases hh : res.head? with
        | none => exact hf3
        | some res0 =>
          dsimp only
          have hf4 := logRead_frame hf3 (u32 (res0 + 4)) 4
          cases hp : st3.mem.readUint32Le (u32 (res0 + 4)) with
          | none => exact hf4
          | some mp =>
            dsimp only
            have hf5 := logRead_frame hf4 (u32 (res0 + 8)) 4
            cases hq : (logRead st3 (u32 (res0 + 4)) 4).mem.readUint32Le (u32 (res0 + 8)) with
            | none => exact hf5
            | some msz =>
              dsimp only
              by_cases hz : msz ≠ 0
              · rw [if_pos hz]
                have hf6 := logRead_frame hf5 mp msz
                cases hmr : (logRead (logRead st3 (u32 (res0 + 4)) 4) (u32 (res0 + 8)) 4).mem.read mp msz with
                | none => exact hf6
                | some raw =>
                  have h := ensure_frame
                    (logRead (logRead (logRead st3 (u32 (res0 + 4)) 4) (u32 (res0 + 8)) 4) mp msz)
                    (u32 res0) raw
                  refine frameOk_trans hf6 ?_
                  rw [hf6.1] at h
                  exact h
              · rw [if_neg hz]
                have h := ensure_frame
                  (logRead (logRead st3 (u32 (res0 + 4)) 4) (u32 (res0 + 8)) 4)
                  (u32 res0) []
                refine frameOk_trans hf5 ?_
                rw [hf5.1] at h
                exact h

theorem execSelectUsers_frame (E : Engine σ) (q : List Nat) (fuel : Nat) (st : St σ) :
    FrameOk st.dbHandle st (execSelectUsers E q fuel st).2 := by
  unfold execSelectUsers
  cases hal : allocateString E q st with
  | mk ra st1 =>
  have hf1 : FrameOk st.dbHandle st st1 := by
    have h := allocateString_frame E q st
    rw [hal] at h
    exact h
  cases ra with
  | error e => exact hf1
  | ok pq =>
    obtain ⟨qp, qs⟩ := pq
    dsimp only
    cases hpr : callFunction E "sqlite3_prepare_v2"
        (ExtCall.prepare [st1.dbHandle, qp, qs]) st1 with
    | mk rp st2 =>
    have hf2 : FrameOk st.dbHandle st st2 := by
      refine frameOk_trans hf1 ?_
      have h := callFunction_frame E "sqlite3_prepare_v2"
        (ExtCall.prepare [st1.dbHandle, qp, qs]) st1 st1.dbHandle rfl
        (fun _ => by simp [handleArgsOk])
      rw [hpr, hf1.1] at h
      exact h
    cases rp with
    | error e => exact hf2
    | ok _ =>
      dsimp only
      cases hgr : callFunction E "get_result_ptr" ExtCall.getResultPtr st2 with
      | mk rg st3 =>
      have hf3 : FrameOk st.dbHandle st st3 := by
        refine frameOk_trans hf2 ?_
        have h := callFunction_frame E "get_result_ptr" ExtCall.getResultPtr st2
          st2.dbHandle rfl (fun _ => trivial)
        rw [hgr, hf2.1] at h
        exact h
      cases rg with
      | error e => exact hf3
      | ok res =>
        dsimp only
        cases hh : res.head? with
        | none => exact hf3
        | some res0 =>
          dsimp only
          cases hen : ensureStatusCodeSuccess st3 (u32 res0) failedToPrepareMsg with
          | mk ren st4 =>
          have hf4 : FrameOk st.dbHandle st st4 := by
            refine frameOk_trans hf3 ?_
            have h := ensure_frame st3 (u32 res0) failedToPrepareMsg
            rw [hen, hf3.1] at h
            exact h
          cases ren with
          | error e => exact hf4
          | ok _ =>
            dsimp only
            have hf5 := logRead_frame hf4 (u32 (res0 + 4)) 4
            cases hst : st4.mem.readUint32Le (u32 (res0 + 4)) with
            | none => exact hf5
            | some stmt =>
              dsimp only
              by_cases hz : stmt = 0
              · rw [if_pos hz]
                exact hf5
              · rw [if_neg hz]
                refine frameOk_trans hf5 ?_
                have h := stepLoop_frame E stmt fuel (logRead st4 (u32 (res0 + 4)) 4)
                rw [show (logRead st4 (u32 (res0 + 4)) 4).dbHandle = st.dbHandle from hf5.1] at h
                exact h

/-- C10: once the database handle is stored, none of the client's
operations (execute, query with its step loop, step, integer- and
text-column reads, string allocation) changes it, and every exec and
every prepare call these operations issue passes exactly that stored
handle as its first argument (the `FrameOk` relation: the final state's
handle equals the initial one, and every newly traced exec/prepare call
event carries it).  The bound function references are the fields of the
immutable engine value `E`, which no operation can modify. -/
theorem C10_handle_frame {σ : Type} (E : Engine σ) (q : List Nat)
    (fuel stmt col : Nat) (st : St σ) :
    FrameOk st.dbHandle st (execSql E q st).2 ∧
    FrameOk st.dbHandle st (execSelectUsers E q fuel st).2 ∧
    (execStep E stmt st).2.dbHandle = st.dbHandle ∧
    (readInt E stmt col st).2.dbHandle = st.dbHandle ∧
    (readText E stmt col st).2.dbHandle = st.dbHandle ∧
    (allocateString E q st).2.dbHandle = st.dbHandle :=
  ⟨execSql_frame E q st, execSelectUsers_frame E q fuel st,
   (execStep_frame E stmt st).1, (readInt_frame E stmt col st).1,
   (readText_frame E stmt col st).1, (allocateString_frame E q st).1⟩

/-- Witness for C10: the concrete execute and query leave the stored
handle 5 unchanged, and the exec call recorded in the concrete trace
carries exactly that handle as its first argument. -/
theorem C10_witness :
    (execSql engA [81] stB).2.dbHandle = 5 ∧
    (execSelectUsers engRow [81] 3 stR).2.dbHandle = 5 ∧
    handleArgsOk 5 (Event.call "sqlite3_exec" (ExtCall.exec [5, 32, 1, 0, 0]) [0]) := by
  have h := C10_handle_frame engA [81] 3 7 0 stB
  have h2 := C10_handle_frame engRow [81] 3 7 0 stR
  refine ⟨h.1.1, h2.2.1.1, ?_⟩
  have hm : Event.call "sqlite3_exec" (ExtCall.exec [5, 32, 1, 0, 0]) [0] ∈
      (execSql engA [81] stB).2.trace := by decide
  rcases h.1.2 _ hm with hin | hok
  · exact absurd hin (by simp [stB])
  · exact hok

end WazeroSqlite
